import Mathlib

/-!
Shallow embedding of the pranaOS virtual-memory subsystem
(src/kernel/vm/Region.cpp and src/kernel/vm/AnonymousVMObject.cpp),
together with theorems settling the frozen claims about it.

Machine integers do not overflow on these paths (page counts and byte
counts are small), so they are modelled as Nat.  Components whose code is
not part of the sources (the MemoryManager commit accounting, the
CommittedCowPages pool, the volatile-range bookkeeping declared in the
missing AnonymousVMObject.h, and Inode::read_bytes) are modelled from the
specification and marked as such in their doc comments.
-/

namespace PranaOS

/-- Page size in bytes (4 KiB x86 pages). -/
def PAGE_SIZE : Nat := 4096

/-- Discriminant of a physical frame: an ordinary frame, the process-wide
shared-zero sentinel, or the lazy-committed sentinel. -/
inductive FrameKind where
  | Normal
  | SharedZero
  | LazyCommitted
deriving DecidableEq

/-- A physical page frame as the VM code observes it: its kind, physical
address, the reference count observed at the time of the operation, and
the byte contents of the frame. -/
structure PhysicalPage where
  kind : FrameKind
  paddr : Nat
  ref_count : Nat
  contents : List Nat
deriving DecidableEq

/-- PhysicalPage::is_shared_zero_page. -/
def PhysicalPage.is_shared_zero_page (p : PhysicalPage) : Bool :=
  match p.kind with
  | FrameKind.SharedZero => true
  | _ => false

/-- PhysicalPage::is_lazy_committed_page. -/
def PhysicalPage.is_lazy_committed_page (p : PhysicalPage) : Bool :=
  match p.kind with
  | FrameKind.LazyCommitted => true
  | _ => false

/-- The process-wide shared zero frame, MM.shared_zero_page.
Modelled from the spec: a single immutable frame of zeros that is never
freed; its reference count is always at least 2 because the memory
manager itself holds a reference. -/
def sharedZeroPage : PhysicalPage :=
  { kind := FrameKind.SharedZero
    paddr := 0x1000
    ref_count := 2
    contents := List.replicate PAGE_SIZE 0 }

/-- The process-wide lazy-committed sentinel frame, MM.lazy_committed_page.
Modelled from the spec: a placeholder frame denoting a charged but not yet
materialised commitment; never freed. -/
def lazyCommittedPage : PhysicalPage :=
  { kind := FrameKind.LazyCommitted
    paddr := 0x2000
    ref_count := 2
    contents := List.replicate PAGE_SIZE 0 }

/-- Variant tag of a VMObject. -/
inductive VMObjectKind where
  | Anonymous
  | PrivateInode
  | SharedInode
deriving DecidableEq

/-- A page-granular range of a VMObject, as used by the purgeable-memory
bookkeeping (base page index and page count). -/
structure VolatilePageRange where
  base : Nat
  count : Nat
deriving DecidableEq

/-- VMObject state.  The anonymous-only attributes (cow map, commit
counter, committed-cow pool, volatile ranges, purgeable registrations)
are carried here as well and are unused for inode variants; the inode
variants instead carry the file bytes and per-page dirty bits. -/
structure VMObject where
  kind : VMObjectKind
  physical_pages : List (Option PhysicalPage)
  cow_map : Option (List Bool)
  unused_committed_pages : Nat
  shared_committed_cow_pages : Option Nat
  volatile_ranges : List VolatilePageRange
  registrations : List Bool
  inode_data : List Nat
  dirty_bits : List Bool
deriving DecidableEq

/-- VMObject::page_count: slot count equals page count. -/
def VMObject.page_count (v : VMObject) : Nat := v.physical_pages.length

/-- VMObject::is_anonymous. -/
def VMObject.is_anonymous (v : VMObject) : Bool :=
  match v.kind with
  | VMObjectKind.Anonymous => true
  | _ => false

/-- VMObject::is_inode. -/
def VMObject.is_inode (v : VMObject) : Bool :=
  match v.kind with
  | VMObjectKind.PrivateInode => true
  | VMObjectKind.SharedInode => true
  | VMObjectKind.Anonymous => false

/-- Whether a volatile page range contains a given page index. -/
def VolatilePageRange.containsPage (r : VolatilePageRange) (p : Nat) : Bool :=
  decide (r.base ≤ p) && decide (p < r.base + r.count)

/-- Modelled from the spec: a page is volatile when some registered
volatile range contains it (the VolatilePageRanges container lives in the
missing AnonymousVMObject.h). -/
def VMObject.is_volatile_page (v : VMObject) (p : Nat) : Bool :=
  v.volatile_ranges.any (fun r => r.containsPage p)

/-- AnonymousVMObject::is_nonvolatile (AnonymousVMObject.cpp lines
377-382); the volatile-range cache it consults is modelled from the spec
as the set of registered volatile ranges. -/
def VMObject.is_nonvolatile (v : VMObject) (p : Nat) : Bool :=
  !v.is_volatile_page p

/-- The null test plus sentinel test performed on a slot. -/
def slotSentinelCheck (page : Option PhysicalPage) : Bool :=
  match page with
  | some p => p.is_shared_zero_page || p.is_lazy_committed_page
  | none => false

/-- The cow bit of a page: false when the bitmap is null, otherwise the
stored bit. -/
def VMObject.cow_bit (v : VMObject) (page_index : Nat) : Bool :=
  match v.cow_map with
  | none => false
  | some m => m.getD page_index false

/-- AnonymousVMObject::should_cow (AnonymousVMObject.cpp lines 355-363):
return true when the slot holds a sentinel; else return false when
shared; else return the cow bit of a non-null cow map. -/
def VMObject.should_cow (v : VMObject) (page_index : Nat) (is_shared : Bool) : Bool :=
  if slotSentinelCheck (v.physical_pages.getD page_index none) then true
  else if is_shared then false
  else !v.cow_map.isNone && (v.cow_map.getD []).getD page_index false

/-- The cow map produced by AnonymousVMObject::ensure_cow_map
(AnonymousVMObject.cpp lines 340-345): the existing map, or a fresh
all-ones bitmap of page_count bits. -/
def VMObject.ensure_cow_map_val (v : VMObject) : List Bool :=
  match v.cow_map with
  | none => List.replicate v.page_count true
  | some m => m

/-- AnonymousVMObject::ensure_or_reset_cow_map (AnonymousVMObject.cpp
lines 347-353): create an all-ones map when null, else fill the existing
map with ones. -/
def VMObject.ensure_or_reset_cow_map (v : VMObject) : VMObject :=
  match v.cow_map with
  | none => { v with cow_map := some (List.replicate v.page_count true) }
  | some m => { v with cow_map := some (List.replicate m.length true) }

/-- AnonymousVMObject::set_should_cow (AnonymousVMObject.cpp lines
365-368). -/
def VMObject.set_should_cow (v : VMObject) (page_index : Nat) (cow : Bool) : VMObject :=
  { v with cow_map := some (v.ensure_cow_map_val.set page_index cow) }

/-- A Region: access bits, shared and cacheable flags, the offset of its
window into the VMObject (in pages, per the spec data model), the number
of pages it maps, whether it currently has a page directory, and whether
its addresses fall in the user-allowed range (the vaddr test of
Region.cpp line 178, constant across the pages of one region here). -/
structure Region where
  access_r : Bool
  access_w : Bool
  access_x : Bool
  shared : Bool
  cacheable : Bool
  offset_in_vmobject : Nat
  page_count : Nat
  mapped : Bool
  user_allowed : Bool
deriving DecidableEq

/-- Region::is_readable. -/
def Region.is_readable (r : Region) : Bool := r.access_r

/-- Region::is_writable. -/
def Region.is_writable (r : Region) : Bool := r.access_w

/-- Region::is_executable. -/
def Region.is_executable (r : Region) : Bool := r.access_x

/-- Region::first_page_index: the first VMO page of the regions window. -/
def Region.first_page_index (r : Region) : Nat := r.offset_in_vmobject

/-- Region::translate_to_vmobject_page: region page index to VMO page
index. -/
def Region.translate_to_vmobject_page (r : Region) (i : Nat) : Nat :=
  r.first_page_index + i

/-- Region::physical_page: the VMO slot backing region page i. -/
def Region.physical_page (r : Region) (v : VMObject) (i : Nat) : Option PhysicalPage :=
  v.physical_pages.getD (r.translate_to_vmobject_page i) none

/-- Region::should_cow (Region.cpp lines 159-164): false for
non-anonymous VMOs, else the VMO-level should_cow at the translated page
with the regions shared flag. -/
def Region.should_cow (r : Region) (v : VMObject) (page_index : Nat) : Bool :=
  if !v.is_anonymous then false
  else v.should_cow (r.first_page_index + page_index) r.shared

/-- A page-table entry, with the fields the VM code writes. -/
structure PTE where
  present : Bool
  writable : Bool
  user_allowed : Bool
  cache_disabled : Bool
  execute_disabled : Bool
  physical_page_base : Nat
deriving DecidableEq

/-- PageTableEntry::clear: the all-zero entry. -/
def PTE.cleared : PTE :=
  { present := false
    writable := false
    user_allowed := false
    cache_disabled := false
    execute_disabled := false
    physical_page_base := 0 }

/-- Region::map_individual_page_impl (Region.cpp lines 173-204), as the
PTE value written for page_index.  The argument old is the entry returned
by ensure_pte before the call (its execute-disable bit survives when the
CPU lacks NX); has_nx models Processor has_feature NX.  The model assumes
ensure_pte succeeded; the mmap PANIC assertion is outside the model. -/
def Region.map_individual_page_impl (r : Region) (v : VMObject) (page_index : Nat)
    (old : PTE) (has_nx : Bool) : PTE :=
  match r.physical_page v page_index with
  | none => PTE.cleared
  | some page =>
    if !r.is_readable && !r.is_writable then PTE.cleared
    else
      { present := true
        cache_disabled := !r.cacheable
        physical_page_base := page.paddr
        writable :=
          if page.is_shared_zero_page || page.is_lazy_committed_page
              || r.should_cow v page_index then false
          else r.is_writable
        execute_disabled := if has_nx then !r.is_executable else old.execute_disabled
        user_allowed := r.user_allowed }

/-- Outcome of a page-fault handler. -/
inductive PageFaultResponse where
  | ShouldCrash
  | OutOfMemory
  | Continue
deriving DecidableEq

/-- Modelled from the spec: the MemoryManager global commit accounting
(spec section 4.1).  free_pool is the number of uncommitted free pages;
commit(n) succeeds exactly when n pages are available and moves them to
the committed reserve; uncommit(n) returns n pages. -/
structure MMState where
  free_pool : Nat
deriving DecidableEq

/-- MM.commit_user_physical_pages success test: the pool must hold n pages. -/
def MMState.can_commit (mm : MMState) (n : Nat) : Bool := decide (n ≤ mm.free_pool)

/-- MM.commit_user_physical_pages effect on the pool. -/
def MMState.commit (mm : MMState) (n : Nat) : MMState := { free_pool := mm.free_pool - n }

/-- MM.uncommit_user_physical_pages. -/
def MMState.uncommit (mm : MMState) (n : Nat) : MMState := { free_pool := mm.free_pool + n }

/-- Modelled from the spec: for_each_nonvolatile_range (declared in the
missing AnonymousVMObject.h) visits the complement of the volatile
ranges within the page range, so the sum of the counts it reports is the
number of non-volatile pages. -/
def VMObject.need_cow_pages (v : VMObject) : Nat :=
  (List.range v.page_count).countP (fun p => v.is_nonvolatile p)

/-- The slot-rewriting loop of the AnonymousVMObject copy constructor
(AnonymousVMObject.cpp lines 113-124): walk the copied slots, replace
each lazy-committed sentinel with the shared zero frame, decrement the
copied unused-committed counter after each replacement and stop as soon
as it reaches zero.  Returns the rewritten slots and the final counter.
Only entered with a positive counter. -/
def replaceLazySlots : List (Option PhysicalPage) → Nat → List (Option PhysicalPage) × Nat
  | [], n => ([], n)
  | none :: rest, n =>
    let res := replaceLazySlots rest n
    (none :: res.1, res.2)
  | some p :: rest, n =>
    if p.is_lazy_committed_page then
      if n - 1 = 0 then (some sharedZeroPage :: rest, 0)
      else
        let res := replaceLazySlots rest (n - 1)
        (some sharedZeroPage :: res.1, res.2)
    else
      let res := replaceLazySlots rest n
      (some p :: res.1, res.2)

/-- The AnonymousVMObject copy constructor (AnonymousVMObject.cpp lines
99-125): the child copies the parent slots, counter and committed-cow
pool, starts with no purgeable registrations and a null cow map, resets
the cow map to all ones, and, when the copied counter is positive, runs
the lazy-slot replacement loop.  The VERIFY that the counter ends at
zero is reflected as a hypothesis of the theorems using this. -/
def VMObject.clone_child (v : VMObject) : VMObject :=
  let base : VMObject :=
    { kind := VMObjectKind.Anonymous
      physical_pages := v.physical_pages
      cow_map := none
      unused_committed_pages := v.unused_committed_pages
      shared_committed_cow_pages := v.shared_committed_cow_pages
      volatile_ranges := []
      registrations := []
      inode_data := []
      dirty_bits := [] }
  let base := base.ensure_or_reset_cow_map
  if base.unused_committed_pages > 0 then
    let res := replaceLazySlots base.physical_pages base.unused_committed_pages
    { base with physical_pages := res.1, unused_committed_pages := res.2 }
  else base

/-- AnonymousVMObject::try_clone (AnonymousVMObject.cpp lines 16-41).
Returns the optional child, the parent state after the call, and the
memory-manager state.  pool_alloc_ok models the success of
try_create for the CommittedCowPages pool, child_alloc_ok the success of
the nothrow allocation of the child object; both allocations are outside
the model.  A successful pool creation stores need as the credit count
of the shared pool. -/
def VMObject.try_clone (v : VMObject) (mm : MMState) (pool_alloc_ok child_alloc_ok : Bool) :
    Option VMObject × VMObject × MMState :=
  let need := v.need_cow_pages
  if !mm.can_commit need then (none, v, mm)
  else
    let mm1 := mm.commit need
    if !pool_alloc_ok then
      (none, { v with shared_committed_cow_pages := none }, mm1.uncommit need)
    else
      let v1 : VMObject := { v with shared_committed_cow_pages := some need }
      let v2 := v1.ensure_or_reset_cow_map
      if !child_alloc_ok then (none, v2, mm1)
      else (some v2.clone_child, v2, mm1)

/-- AnonymousVMObject::handle_cow_fault (AnonymousVMObject.cpp lines
384-433).  fresh models the outcome of MM.allocate_user_physical_page
(none when the allocator fails; otherwise the fresh physical address and
the junk contents of the unzeroed frame).  fresh_committed_paddr is the
address of the frame a committed allocation would produce (committed
allocation never fails).  The CommittedCowPages operations are modelled
from the spec: the pool holds a credit count; return_one gives one
reserved credit back to the global pool and reports whether the pool is
now drained; allocate_one takes one credit and yields a committed frame.
The quick-mapped copy gives the new frame the bytes of the faulting
page, which are the bytes of the currently mapped slot frame.  A null
slot would be a null dereference in the source; it is modelled as a
crash. -/
def VMObject.handle_cow_fault (v : VMObject) (mm : MMState) (page_index : Nat)
    (fresh : Option (Nat × List Nat)) (fresh_committed_paddr : Nat) :
    VMObject × MMState × PageFaultResponse :=
  match v.physical_pages.getD page_index none with
  | none => (v, mm, PageFaultResponse.ShouldCrash)
  | some page_slot =>
    let have_committed := v.shared_committed_cow_pages.isSome && v.is_nonvolatile page_index
    if page_slot.ref_count = 1 then
      let v1 := v.set_should_cow page_index false
      if have_committed then
        match v1.shared_committed_cow_pages with
        | some n =>
          let v2 : VMObject :=
            { v1 with shared_committed_cow_pages := if n - 1 = 0 then none else some (n - 1) }
          (v2, mm.uncommit 1, PageFaultResponse.Continue)
        | none => (v1, mm, PageFaultResponse.Continue)
      else (v1, mm, PageFaultResponse.Continue)
    else
      if have_committed then
        let n := v.shared_committed_cow_pages.getD 0
        let page : PhysicalPage :=
          { kind := FrameKind.Normal
            paddr := fresh_committed_paddr
            ref_count := 1
            contents := page_slot.contents }
        let v1 : VMObject :=
          { v with
            shared_committed_cow_pages := some (n - 1)
            physical_pages := v.physical_pages.set page_index (some page) }
        (v1.set_should_cow page_index false, mm, PageFaultResponse.Continue)
      else
        match fresh with
        | none => (v, mm, PageFaultResponse.OutOfMemory)
        | some fr =>
          let page : PhysicalPage :=
            { kind := FrameKind.Normal
              paddr := fr.1
              ref_count := 1
              contents := page_slot.contents }
          let v1 : VMObject :=
            { v with physical_pages := v.physical_pages.set page_index (some page) }
          (v1.set_should_cow page_index false, mm, PageFaultResponse.Continue)

/-- The zero-filled normal frame produced by
MM.allocate_committed_user_physical_page at a given address. -/
def committed_zero_frame (paddr : Nat) : PhysicalPage :=
  { kind := FrameKind.Normal
    paddr := paddr
    ref_count := 1
    contents := List.replicate PAGE_SIZE 0 }

/-- AnonymousVMObject::allocate_committed_page (AnonymousVMObject.cpp
lines 319-338): decrement the unused-committed counter and produce a
zero-filled committed frame (committed allocation never fails).  The two
VERIFY assertions (positive counter, page not volatile) are reflected as
hypotheses of the theorems using this. -/
def VMObject.allocate_committed_page (v : VMObject) (fresh_paddr : Nat) :
    VMObject × PhysicalPage :=
  ({ v with unused_committed_pages := v.unused_committed_pages - 1 },
   committed_zero_frame fresh_paddr)

/-- One pass of the inner purge loop (AnonymousVMObject.cpp lines
139-147) over the page indices starting at i, for the given number of
pages: count each slot that holds a frame other than the shared zero
frame, and overwrite every visited slot with the shared zero frame.
Returns the rewritten slots and the count. -/
def purge_slots_from (slots : List (Option PhysicalPage)) (i : Nat) :
    Nat → List (Option PhysicalPage) × Nat
  | 0 => (slots, 0)
  | Nat.succ k =>
    let counted : Nat :=
      match slots.getD i none with
      | some p => if p.is_shared_zero_page then 0 else 1
      | none => 0
    let res := purge_slots_from (slots.set i (some sharedZeroPage)) (i + 1) k
    (res.1, counted + res.2)

/-- The per-range purge loop (AnonymousVMObject.cpp lines 137-170) over a
list of volatile ranges: purge the slots of each range; when a range had
at least one purged page, flag every purgeable registration (the missing
set_was_purged is modelled from the spec as recording a was-purged flag
per registration) and accumulate the count.  The remapping of region
PTEs is page-table state outside the VMObject and is not modelled here;
claims about it are settled through the fault-handler model. -/
def purge_ranges : List (Option PhysicalPage) → List Bool → List VolatilePageRange →
    List (Option PhysicalPage) × List Bool × Nat
  | slots, regs, [] => (slots, regs, 0)
  | slots, regs, rng :: rest =>
    let r := purge_slots_from slots rng.base rng.count
    let regs1 := if r.2 > 0 then regs.map (fun _ => true) else regs
    let res := purge_ranges r.1 regs1 rest
    (res.1, res.2.1, r.2 + res.2.2)

/-- AnonymousVMObject::purge (AnonymousVMObject.cpp lines 133-172):
iterate the volatile ranges, replacing every slot in them with the
shared zero frame, counting the replaced non-shared-zero frames,
flagging the registrations of ranges that lost pages, and returning the
total. -/
def VMObject.purge (v : VMObject) : VMObject × Nat :=
  let res := purge_ranges v.physical_pages v.registrations v.volatile_ranges
  ({ v with physical_pages := res.1, registrations := res.2.1 }, res.2.2)

/-- A region together with the page-table entries of its pages (one PTE
per region page). -/
structure MappedRegion where
  region : Region
  ptes : List PTE
deriving DecidableEq

/-- Region::do_remap_vmobject_page (Region.cpp lines 206-219) for a VMO
page index: skip when the region has no page directory or the page falls
outside the regions window (translate_vmobject_page, from the missing
Region.h, fails exactly then); otherwise rewrite the PTE of the
translated page via map_individual_page_impl against the given VMO
state. -/
def do_remap_vmobject_page (mr : MappedRegion) (v : VMObject) (vm_page : Nat)
    (has_nx : Bool) : MappedRegion :=
  if !mr.region.mapped then mr
  else if vm_page < mr.region.first_page_index then mr
  else if mr.region.first_page_index + mr.region.page_count ≤ vm_page then mr
  else
    let i := vm_page - mr.region.first_page_index
    let old := mr.ptes.getD i PTE.cleared
    { mr with ptes := mr.ptes.set i (mr.region.map_individual_page_impl v i old has_nx) }

/-- Region::remap_vmobject_page (Region.cpp lines 221-230): fan the remap
of one VMO page out to every region mapping the VMO. -/
def remap_vmobject_page (regions : List MappedRegion) (v : VMObject) (vm_page : Nat)
    (has_nx : Bool) : List MappedRegion :=
  regions.map (fun mr => do_remap_vmobject_page mr v vm_page has_nx)

/-- The zero-padded page buffer built by Region::handle_inode_fault
(Region.cpp lines 409-423): the bytes of the file from the given offset,
at most PAGE_SIZE of them, padded with zeros to PAGE_SIZE.
Inode::read_bytes is modelled from the spec as delivering
min(PAGE_SIZE, size - offset) bytes; its error path is not modelled. -/
def page_buffer_bytes (data : List Nat) (off : Nat) : List Nat :=
  let chunk := (data.drop off).take PAGE_SIZE
  chunk ++ List.replicate (PAGE_SIZE - chunk.length) 0

/-- Region::handle_inode_fault (Region.cpp lines 390-447).  The VMObject
argument is the state observed once the VMO lock is acquired after the
inode read completed (the post-lock re-check is the authoritative one).
fresh models MM.allocate_user_physical_page with no zero fill: none
means the allocator failed, otherwise it carries the fresh physical
address and the junk contents of the unzeroed frame, which the
quick-mapped memcpy then fully overwrites with the buffer. -/
def Region.handle_inode_fault (r : Region) (v : VMObject) (regions : List MappedRegion)
    (page_index_in_region : Nat) (fresh : Option (Nat × List Nat)) (has_nx : Bool) :
    VMObject × List MappedRegion × PageFaultResponse :=
  let idx := r.translate_to_vmobject_page page_index_in_region
  let buf := page_buffer_bytes v.inode_data (idx * PAGE_SIZE)
  match v.physical_pages.getD idx none with
  | some _ =>
    (v, remap_vmobject_page regions v idx has_nx, PageFaultResponse.Continue)
  | none =>
    match fresh with
    | none => (v, regions, PageFaultResponse.OutOfMemory)
    | some fr =>
      let page : PhysicalPage :=
        { kind := FrameKind.Normal
          paddr := fr.1
          ref_count := 1
          contents := buf }
      let v1 : VMObject := { v with physical_pages := v.physical_pages.set idx (some page) }
      (v1, remap_vmobject_page regions v1 idx has_nx, PageFaultResponse.Continue)

/-- Region::handle_zero_fault (Region.cpp lines 332-371): when another
thread already installed a normal frame, just remap; a lazy-committed
slot takes a committed frame; a shared-zero slot takes a zero-filled
user frame, failing with OutOfMemory when the allocator fails; then the
page is remapped in every region of the VMO.  A null slot reaching the
sentinel test is a null dereference in the source, modelled as crash. -/
def Region.handle_zero_fault (r : Region) (v : VMObject) (regions : List MappedRegion)
    (page_index_in_region : Nat) (fresh : Option (Nat × List Nat))
    (fresh_committed_paddr : Nat) (has_nx : Bool) :
    VMObject × List MappedRegion × PageFaultResponse :=
  let idx := r.translate_to_vmobject_page page_index_in_region
  match v.physical_pages.getD idx none with
  | some p =>
    if !p.is_shared_zero_page && !p.is_lazy_committed_page then
      (v, remap_vmobject_page regions v idx has_nx, PageFaultResponse.Continue)
    else if p.is_lazy_committed_page then
      let res := v.allocate_committed_page fresh_committed_paddr
      let v1 : VMObject :=
        { res.1 with physical_pages := res.1.physical_pages.set idx (some res.2) }
      (v1, remap_vmobject_page regions v1 idx has_nx, PageFaultResponse.Continue)
    else
      match fresh with
      | none => (v, regions, PageFaultResponse.OutOfMemory)
      | some fr =>
        let page : PhysicalPage :=
          { kind := FrameKind.Normal
            paddr := fr.1
            ref_count := 1
            contents := List.replicate PAGE_SIZE 0 }
        let v1 : VMObject := { v with physical_pages := v.physical_pages.set idx (some page) }
        (v1, remap_vmobject_page regions v1 idx has_nx, PageFaultResponse.Continue)
  | none => (v, regions, PageFaultResponse.ShouldCrash)

/-- Region::handle_cow_fault (Region.cpp lines 373-388): crash for
non-anonymous VMOs, else delegate to the VMO-level handler and remap the
page everywhere. -/
def Region.region_handle_cow_fault (r : Region) (v : VMObject) (regions : List MappedRegion)
    (mm : MMState) (page_index_in_region : Nat) (fresh : Option (Nat × List Nat))
    (fresh_committed_paddr : Nat) (has_nx : Bool) :
    VMObject × List MappedRegion × MMState × PageFaultResponse :=
  if !v.is_anonymous then (v, regions, mm, PageFaultResponse.ShouldCrash)
  else
    let idx := r.translate_to_vmobject_page page_index_in_region
    let res := v.handle_cow_fault mm idx fresh fresh_committed_paddr
    (res.1, remap_vmobject_page regions res.1 idx has_nx, res.2.1, res.2.2)

/-- Kind of a page fault. -/
inductive FaultType where
  | PageNotPresent
  | ProtectionViolation
deriving DecidableEq

/-- Access kind of a page fault. -/
inductive FaultAccess where
  | Read
  | Write
deriving DecidableEq

/-- A page fault as classified by the CPU. -/
structure PageFault where
  fault_type : FaultType
  access : FaultAccess
deriving DecidableEq

/-- PageFault::is_read. -/
def PageFault.is_read (f : PageFault) : Bool :=
  match f.access with
  | FaultAccess.Read => true
  | FaultAccess.Write => false

/-- PageFault::is_write. -/
def PageFault.is_write (f : PageFault) : Bool :=
  match f.access with
  | FaultAccess.Read => false
  | FaultAccess.Write => true

/-- Region::handle_fault (Region.cpp lines 290-330).  Returns the VMO
state, the PTE state of every region of the VMO, the memory-manager
state and the response.  A not-present fault first crashes illegal
accesses, then dispatches to the inode handler, then serves a
lazy-committed slot from the committed reserve and remaps, and crashes
otherwise; a protection violation on a legal write to a should-cow page
dispatches on the slot kind to the zero or cow handler and any other
protection violation crashes. -/
def Region.handle_fault (r : Region) (v : VMObject) (regions : List MappedRegion)
    (mm : MMState) (fault : PageFault) (page_index_in_region : Nat)
    (fresh : Option (Nat × List Nat)) (fresh_committed_paddr : Nat) (has_nx : Bool) :
    VMObject × List MappedRegion × MMState × PageFaultResponse :=
  match fault.fault_type with
  | FaultType.PageNotPresent =>
    if fault.is_read && !r.is_readable then (v, regions, mm, PageFaultResponse.ShouldCrash)
    else if fault.is_write && !r.is_writable then (v, regions, mm, PageFaultResponse.ShouldCrash)
    else if v.is_inode then
      let res := r.handle_inode_fault v regions page_index_in_region fresh has_nx
      (res.1, res.2.1, mm, res.2.2)
    else
      match v.physical_pages.getD (r.translate_to_vmobject_page page_index_in_region) none with
      | some p =>
        if p.is_lazy_committed_page then
          let idx := r.translate_to_vmobject_page page_index_in_region
          let res := v.allocate_committed_page fresh_committed_paddr
          let v1 : VMObject :=
            { res.1 with physical_pages := res.1.physical_pages.set idx (some res.2) }
          (v1, remap_vmobject_page regions v1 idx has_nx, mm, PageFaultResponse.Continue)
        else (v, regions, mm, PageFaultResponse.ShouldCrash)
      | none => (v, regions, mm, PageFaultResponse.ShouldCrash)
  | FaultType.ProtectionViolation =>
    if fault.is_write && r.is_writable && r.should_cow v page_index_in_region then
      match v.physical_pages.getD (r.translate_to_vmobject_page page_index_in_region) none with
      | some p =>
        if p.is_shared_zero_page || p.is_lazy_committed_page then
          let res := r.handle_zero_fault v regions page_index_in_region fresh
            fresh_committed_paddr has_nx
          (res.1, res.2.1, mm, res.2.2)
        else
          r.region_handle_cow_fault v regions mm page_index_in_region fresh
            fresh_committed_paddr has_nx
      | none => (v, regions, mm, PageFaultResponse.ShouldCrash)
    else (v, regions, mm, PageFaultResponse.ShouldCrash)

/-- Region::amount_resident (Region.cpp lines 124-133): PAGE_SIZE bytes
for every region page whose slot holds a frame that is neither the
shared-zero nor the lazy-committed sentinel. -/
def Region.amount_resident (r : Region) (v : VMObject) : Nat :=
  (List.range r.page_count).foldl
    (fun bytes i =>
      match r.physical_page v i with
      | some page =>
        if !page.is_shared_zero_page && !page.is_lazy_committed_page then bytes + PAGE_SIZE
        else bytes
      | none => bytes) 0

/-- InodeVMObject::amount_dirty is not part of the sources; modelled from
the spec: it reports the dirty pages written but not yet flushed, one
PAGE_SIZE per set dirty bit. -/
def VMObject.inode_amount_dirty (v : VMObject) : Nat :=
  PAGE_SIZE * v.dirty_bits.count true

/-- Region::amount_dirty (Region.cpp lines 117-122): for non-inode VMOs
the resident byte count, else the inode dirty byte count. -/
def Region.amount_dirty (r : Region) (v : VMObject) : Nat :=
  if !v.is_inode then r.amount_resident v
  else v.inode_amount_dirty

/-- An anonymous VMObject with no pages, used as the base of the concrete
states below. -/
def baseAnonVMO : VMObject :=
  { kind := VMObjectKind.Anonymous
    physical_pages := []
    cow_map := none
    unused_committed_pages := 0
    shared_committed_cow_pages := none
    volatile_ranges := []
    registrations := []
    inode_data := []
    dirty_bits := [] }

/-- Whether a region page is counted by amount_resident: its slot holds a
frame that is not a sentinel. -/
def residentPred (r : Region) (v : VMObject) (i : Nat) : Bool :=
  match r.physical_page v i with
  | some p => !p.is_shared_zero_page && !p.is_lazy_committed_page
  | none => false

lemma foldl_page_size_count (p : Nat → Bool) :
    ∀ (l : List Nat) (acc : Nat),
      l.foldl (fun bytes i => if p i then bytes + PAGE_SIZE else bytes) acc
        = acc + PAGE_SIZE * l.countP p := by
  intro l
  induction l with
  | nil => intro acc; simp
  | cons a t ih =>
    intro acc
    cases h : p a
    · simp only [List.foldl, List.countP_cons, h]
      rw [ih]
      simp
    · simp only [List.foldl, List.countP_cons, h]
      rw [ih]
      simp
      ring

lemma amount_resident_eq_count (r : Region) (v : VMObject) :
    r.amount_resident v = PAGE_SIZE * (List.range r.page_count).countP (residentPred r v) := by
  unfold Region.amount_resident
  have hbody :
      (fun (bytes : Nat) (i : Nat) =>
        match r.physical_page v i with
        | some page =>
          if !page.is_shared_zero_page && !page.is_lazy_committed_page then bytes + PAGE_SIZE
          else bytes
        | none => bytes)
      = fun (bytes : Nat) (i : Nat) => if residentPred r v i then bytes + PAGE_SIZE else bytes := by
    funext bytes i
    unfold residentPred
    cases r.physical_page v i with
    | none => simp
    | some page => cases page.is_shared_zero_page <;> cases page.is_lazy_committed_page <;> simp
  rw [hbody, foldl_page_size_count]
  simp

/-- C10: for every Region whose VMO is not inode-backed, amount_dirty
returns the same value as amount_resident, which is PAGE_SIZE times the
number of region pages whose slot holds a non-sentinel frame. -/
theorem C10_amount_dirty_non_inode (r : Region) (v : VMObject) (h : v.is_inode = false) :
    r.amount_dirty v = r.amount_resident v ∧
    r.amount_dirty v = PAGE_SIZE * (List.range r.page_count).countP (residentPred r v) := by
  have hd : r.amount_dirty v = r.amount_resident v := by
    unfold Region.amount_dirty
    simp [h]
  exact ⟨hd, by rw [hd, amount_resident_eq_count]⟩

/-- Concrete region for the C10 witness: two pages, one resident frame. -/
def c10_region : Region :=
  { access_r := true, access_w := true, access_x := false, shared := false,
    cacheable := true, offset_in_vmobject := 0, page_count := 2, mapped := true,
    user_allowed := true }

/-- Concrete anonymous VMO for the C10 witness. -/
def c10_vmo : VMObject :=
  { baseAnonVMO with
    physical_pages := [some { kind := FrameKind.Normal, paddr := 0x7000, ref_count := 1, contents := [] },
                       some sharedZeroPage] }

/-- C10 witness: the theorem applied to a concrete non-inode region. -/
theorem C10_amount_dirty_non_inode_witness :
    c10_region.amount_dirty c10_vmo = c10_region.amount_resident c10_vmo ∧
    c10_region.amount_dirty c10_vmo
      = PAGE_SIZE * (List.range c10_region.page_count).countP (residentPred c10_region c10_vmo) :=
  C10_amount_dirty_non_inode c10_region c10_vmo (by decide)

/-- C7: for a page of an anonymous VMO, should_cow is true exactly when
the slot holds a sentinel frame, or the mapping is not shared and the
cow bit of the page is set. -/
theorem C7_should_cow_iff (v : VMObject) (is_shared : Bool) (page_index : Nat)
    (hanon : v.is_anonymous = true) (hp : page_index < v.page_count) :
    v.should_cow page_index is_shared
      = (slotSentinelCheck (v.physical_pages.getD page_index none)
          || (!is_shared && v.cow_bit page_index)) := by
  unfold VMObject.should_cow VMObject.cow_bit
  cases hs : slotSentinelCheck (v.physical_pages.getD page_index none) <;>
    cases is_shared <;>
      cases hm : v.cow_map <;>
        simp [hs, hm]

/-- Concrete anonymous VMO for the C7 witness. -/
def c7_vmo : VMObject :=
  { baseAnonVMO with
    physical_pages := [some { kind := FrameKind.Normal, paddr := 0x8000, ref_count := 1, contents := [] }]
    cow_map := some [true] }

/-- C7 witness: the theorem applied at a concrete page of a concrete
anonymous VMO. -/
theorem C7_should_cow_iff_witness :
    c7_vmo.should_cow 0 false
      = (slotSentinelCheck (c7_vmo.physical_pages.getD 0 none)
          || (!false && c7_vmo.cow_bit 0)) :=
  C7_should_cow_iff c7_vmo false 0 (by decide) (by decide)

/-- C2: when committing the needed pages fails, try_clone returns absence
and the parent VMO (its cow bitmap, slots, commit counter and
committed-cow pool) and the commit accounting are exactly as before. -/
theorem C2_try_clone_commit_fail (v : VMObject) (mm : MMState) (pok cok : Bool)
    (h : mm.can_commit v.need_cow_pages = false) :
    v.try_clone mm pok cok = (none, v, mm) := by
  unfold VMObject.try_clone
  simp [h]

/-- Concrete parent for the C2 witness: one non-volatile page but an
exhausted commit pool. -/
def c2_vmo : VMObject :=
  { baseAnonVMO with
    physical_pages := [some sharedZeroPage]
    cow_map := some [false]
    shared_committed_cow_pages := some 3 }

/-- C2 witness: cloning with an exhausted pool at a concrete state. -/
theorem C2_try_clone_commit_fail_witness :
    c2_vmo.try_clone { free_pool := 0 } true true = (none, c2_vmo, { free_pool := 0 }) :=
  C2_try_clone_commit_fail c2_vmo { free_pool := 0 } true true (by decide)

/-- Shared, writable, readable region over one anonymous page, for the C1
counterexample. -/
def c1_region : Region :=
  { access_r := true, access_w := true, access_x := false, shared := true,
    cacheable := true, offset_in_vmobject := 0, page_count := 1, mapped := true,
    user_allowed := true }

/-- A normal (non-sentinel) frame for the C1 counterexample. -/
def c1_frame : PhysicalPage :=
  { kind := FrameKind.Normal, paddr := 0x5000, ref_count := 2, contents := [] }

/-- Anonymous VMO with one normal slot whose cow bit is set, for the C1
counterexample. -/
def c1_vmo : VMObject :=
  { baseAnonVMO with
    physical_pages := [some c1_frame]
    cow_map := some [true] }

/-- C1 counterexample: on a shared region over an anonymous VMO whose
page has the cow bit set and a normal frame in the slot, the code maps
the page writable, while the claimed formula (write access AND NOT
(sentinel OR cow bit)) evaluates to false: the claim as stated is false
at this state. -/
theorem C1_counterexample :
    (c1_region.map_individual_page_impl c1_vmo 0 PTE.cleared false).writable = true
    ∧ (c1_region.is_writable
        && !((c1_frame.is_shared_zero_page || c1_frame.is_lazy_committed_page)
              || c1_vmo.cow_bit 0)) = false := by
  constructor
  · decide
  · decide

/-- C1 amended: for every page of a Region, map_individual_page clears
the PTE when the slot is absent or the Region is neither readable nor
writable; otherwise it maps the page present with the writable bit equal
to the write access AND NOT (the slot is a sentinel frame OR (the Region
is private, that is not shared, AND the cow bit of the page is set)); in
particular a sentinel slot never yields a writable PTE.  The hypothesis
reflects that only the anonymous variant carries a cow bitmap. -/
theorem C1_map_individual_page_amended (r : Region) (v : VMObject) (i : Nat)
    (old : PTE) (has_nx : Bool)
    (hcw : v.is_anonymous = false → v.cow_map = none) :
    ((r.physical_page v i = none ∨ (r.is_readable = false ∧ r.is_writable = false)) →
      r.map_individual_page_impl v i old has_nx = PTE.cleared)
    ∧ (∀ p, r.physical_page v i = some p → (r.is_readable || r.is_writable) = true →
        (r.map_individual_page_impl v i old has_nx).present = true
        ∧ (r.map_individual_page_impl v i old has_nx).writable
            = (r.is_writable
                && !((p.is_shared_zero_page || p.is_lazy_committed_page)
                      || (!r.shared && v.cow_bit (r.first_page_index + i)))))
    ∧ (∀ p, r.physical_page v i = some p →
        (p.is_shared_zero_page || p.is_lazy_committed_page) = true →
        (r.map_individual_page_impl v i old has_nx).writable = false) := by
  refine ⟨?_, ?_, ?_⟩
  · rintro (hnone | ⟨hr, hw⟩)
    · unfold Region.map_individual_page_impl
      rw [hnone]
    · unfold Region.map_individual_page_impl
      cases hp : r.physical_page v i with
      | none => rfl
      | some p =>
        rw [hr, hw]
        simp
  · intro p hp hrw
    have hcond : (!r.is_readable && !r.is_writable) = false := by
      cases hr : r.is_readable <;> cases hw : r.is_writable <;>
        simp_all [Region.is_readable, Region.is_writable]
    have hw1 : (p.is_shared_zero_page || p.is_lazy_committed_page || r.should_cow v i)
        = ((p.is_shared_zero_page || p.is_lazy_committed_page)
            || (!r.shared && v.cow_bit (r.first_page_index + i))) := by
      unfold Region.should_cow
      cases ha : v.is_anonymous
      · have hmap := hcw ha
        simp [VMObject.cow_bit, hmap]
      · have hgd : v.physical_pages.getD (r.first_page_index + i) none = some p := hp
        unfold VMObject.should_cow
        rw [hgd]
        cases hs1 : p.is_shared_zero_page <;> cases hs2 : p.is_lazy_committed_page <;>
          cases hsh : r.shared <;> cases hm : v.cow_map <;>
            simp_all [VMObject.cow_bit, slotSentinelCheck]
    unfold Region.map_individual_page_impl
    rw [hp, hcond]
    constructor
    · simp
    · simp only [Bool.false_eq_true, if_false]
      rw [hw1]
      cases hcc : ((p.is_shared_zero_page || p.is_lazy_committed_page)
          || (!r.shared && v.cow_bit (r.first_page_index + i))) <;>
        cases hwv : r.is_writable <;>
          simp_all [Region.is_writable]
  · intro p hp hsent
    unfold Region.map_individual_page_impl
    rw [hp]
    cases hcond : (!r.is_readable && !r.is_writable)
    · simp only [Bool.false_eq_true, if_false]
      simp [hsent]
    · simp [PTE.cleared]

/-- C1 amended witness: at a private region over an anonymous VMO with a
cow-set normal slot the amended formula yields a non-writable present
PTE. -/
theorem C1_map_individual_page_amended_witness :
    (({ c1_region with shared := false }).map_individual_page_impl c1_vmo 0 PTE.cleared
        false).present = true
    ∧ (({ c1_region with shared := false }).map_individual_page_impl c1_vmo 0 PTE.cleared
        false).writable
        = (({ c1_region with shared := false }).is_writable
            && !((c1_frame.is_shared_zero_page || c1_frame.is_lazy_committed_page)
                  || (!({ c1_region with shared := false }).shared
                      && c1_vmo.cow_bit (({ c1_region with shared := false }).first_page_index
                          + 0)))) :=
  (C1_map_individual_page_amended { c1_region with shared := false } c1_vmo 0 PTE.cleared
      false (by decide)).2.1 c1_frame (by decide) (by decide)

lemma getD_set_self {α : Type} (l : List α) (i : Nat) (a d : α) (h : i < l.length) :
    (l.set i a).getD i d = a := by
  induction l generalizing i with
  | nil => simp at h
  | cons x t ih =>
    cases i with
    | zero => simp [List.set, List.getD]
    | succ j =>
      have hj : j < t.length := Nat.lt_of_succ_lt_succ (by simpa using h)
      simpa [List.set, List.getD] using ih j hj

lemma ensure_cow_map_val_length (v : VMObject)
    (hm : ∀ m, v.cow_map = some m → m.length = v.page_count) :
    v.ensure_cow_map_val.length = v.page_count := by
  unfold VMObject.ensure_cow_map_val
  cases hc : v.cow_map with
  | none => simp
  | some m => exact hm m hc

lemma set_should_cow_cow_bit_self (v : VMObject) (i : Nat)
    (hi : i < v.page_count) (hm : ∀ m, v.cow_map = some m → m.length = v.page_count) :
    (v.set_should_cow i false).cow_bit i = false := by
  unfold VMObject.set_should_cow VMObject.cow_bit
  simp only
  exact getD_set_self _ i false false (by rw [ensure_cow_map_val_length v hm]; exact hi)

/-- C4: on a cow fault for a page whose slot frame has reference count 1,
handle_cow_fault clears the cow bit of the page, leaves every slot in
place, returns Continue without consulting the physical allocator, and
handles the committed-cow pool as claimed: with a pool present and the
page non-volatile it returns one credit (pool count drops by one, one
page is uncommitted back to the global pool) and drops the pool
reference exactly when the pool is drained; with no pool, or with the
page volatile, the pool reference and the commit accounting are
untouched, and a null pool is never dereferenced. -/
theorem C4_handle_cow_fault_single (v : VMObject) (mm : MMState) (i : Nat) (p : PhysicalPage)
    (fresh : Option (Nat × List Nat)) (fcp : Nat)
    (hslot : v.physical_pages.getD i none = some p)
    (hrc : p.ref_count = 1)
    (hi : i < v.page_count)
    (hm : ∀ m, v.cow_map = some m → m.length = v.page_count) :
    (v.handle_cow_fault mm i fresh fcp).2.2 = PageFaultResponse.Continue
    ∧ (v.handle_cow_fault mm i fresh fcp).1.physical_pages = v.physical_pages
    ∧ (v.handle_cow_fault mm i fresh fcp).1.cow_bit i = false
    ∧ v.handle_cow_fault mm i fresh fcp = v.handle_cow_fault mm i none fcp
    ∧ (∀ n, v.shared_committed_cow_pages = some n → v.is_nonvolatile i = true →
        (v.handle_cow_fault mm i fresh fcp).1.shared_committed_cow_pages
            = (if n - 1 = 0 then none else some (n - 1))
        ∧ (v.handle_cow_fault mm i fresh fcp).2.1 = mm.uncommit 1)
    ∧ (v.shared_committed_cow_pages = none →
        (v.handle_cow_fault mm i fresh fcp).1.shared_committed_cow_pages = none
        ∧ (v.handle_cow_fault mm i fresh fcp).2.1 = mm)
    ∧ (v.is_nonvolatile i = false →
        (v.handle_cow_fault mm i fresh fcp).1.shared_committed_cow_pages
            = v.shared_committed_cow_pages
        ∧ (v.handle_cow_fault mm i fresh fcp).2.1 = mm) := by
  have hcb := set_should_cow_cow_bit_self v i hi hm
  have hpp : (v.set_should_cow i false).physical_pages = v.physical_pages := rfl
  have hpool : (v.set_should_cow i false).shared_committed_cow_pages
      = v.shared_committed_cow_pages := rfl
  unfold VMObject.handle_cow_fault
  rw [hslot]
  simp only [hrc, reduceIte, hpool]
  cases hsc : v.shared_committed_cow_pages with
  | none => simp [hsc, hcb, hpp, hpool]
  | some n =>
    cases hnv : v.is_nonvolatile i with
    | false => simp [hsc, hnv, hcb, hpp, hpool]
    | true =>
      simp [hsc, hnv, hcb, hpp, hpool]
      simpa [VMObject.cow_bit] using hcb

/-- Concrete single-sharer frame for the C4 witness: reference count 1. -/
def c4_frame : PhysicalPage :=
  { kind := FrameKind.Normal, paddr := 0x9000, ref_count := 1, contents := [] }

/-- Concrete anonymous VMO for the C4 witness: cow bit set, a pool
holding one credit. -/
def c4_vmo : VMObject :=
  { baseAnonVMO with
    physical_pages := [some c4_frame]
    cow_map := some [true]
    shared_committed_cow_pages := some 1 }

/-- C4 witness: the theorem applied at the concrete single-sharer
state. -/
theorem C4_handle_cow_fault_single_witness :
    (c4_vmo.handle_cow_fault { free_pool := 0 } 0 none 0).2.2 = PageFaultResponse.Continue :=
  (C4_handle_cow_fault_single c4_vmo { free_pool := 0 } 0 c4_frame none 0
    (by decide) (by decide) (by decide)
    (fun m h => by
      have hb : c4_vmo.cow_map = some [true] := rfl
      rw [hb] at h
      cases h
      rfl)).1

lemma page_buffer_bytes_length (data : List Nat) (off : Nat) :
    (page_buffer_bytes data off).length = PAGE_SIZE := by
  unfold page_buffer_bytes
  simp only [List.length_append, List.length_replicate, List.length_take, List.length_drop]
  omega

lemma page_buffer_bytes_getD (data : List Nat) (off k : Nat) (hk : k < PAGE_SIZE) :
    (page_buffer_bytes data off).getD k 0 = data.getD (off + k) 0 := by
  unfold page_buffer_bytes
  rw [List.getD_eq_getElem?_getD, List.getD_eq_getElem?_getD, List.getElem?_append]
  have hlen : ((data.drop off).take PAGE_SIZE).length = min PAGE_SIZE (data.length - off) := by
    simp [List.length_take, List.length_drop]
  by_cases hcase : k < ((data.drop off).take PAGE_SIZE).length
  · rw [if_pos hcase, List.getElem?_take, if_pos hk, List.getElem?_drop]
  · rw [if_neg hcase, List.getElem?_replicate]
    rw [hlen] at hcase ⊢
    have hdl : data.length ≤ off + k := by omega
    have hcond : k - min PAGE_SIZE (data.length - off)
        < PAGE_SIZE - min PAGE_SIZE (data.length - off) := by omega
    rw [if_pos hcond, List.getElem?_eq_none hdl]
    rfl

/-- The frame published by a successful inode fault: a normal frame at
the allocated address holding the zero-padded page buffer. -/
def inode_published_page (v : VMObject) (idx : Nat) (fresh_paddr : Nat) : PhysicalPage :=
  { kind := FrameKind.Normal
    paddr := fresh_paddr
    ref_count := 1
    contents := page_buffer_bytes v.inode_data (idx * PAGE_SIZE) }

/-- The VMO state after a successful inode fault published its frame. -/
def inode_publish_state (v : VMObject) (idx : Nat) (fresh_paddr : Nat) : VMObject :=
  { v with
    physical_pages := v.physical_pages.set idx (some (inode_published_page v idx fresh_paddr)) }

/-- C5: handle_inode_fault builds a buffer holding the inode bytes at
offset page_index times PAGE_SIZE, zero-padded to PAGE_SIZE on a short
read, and, against the slot state observed after taking the VMO lock:
a slot already filled by another fault leaves the VMO untouched, remaps
and returns Continue without consulting the allocator; an empty slot
with a failed allocation returns OutOfMemory leaving everything
untouched; an empty slot with a successful allocation publishes a
normal frame at the allocated address whose PAGE_SIZE bytes are exactly
the buffer bytes (the unzeroed junk of the fresh frame is fully
overwritten by the quick-mapped copy). -/
theorem C5_handle_inode_fault (r : Region) (v : VMObject) (regions : List MappedRegion)
    (i : Nat) (fresh : Option (Nat × List Nat)) (has_nx : Bool)
    (hinode : v.is_inode = true)
    (hidx : r.translate_to_vmobject_page i < v.page_count) :
    (∀ p, v.physical_pages.getD (r.translate_to_vmobject_page i) none = some p →
        (r.handle_inode_fault v regions i fresh has_nx).1 = v
        ∧ (r.handle_inode_fault v regions i fresh has_nx).2.1
            = remap_vmobject_page regions v (r.translate_to_vmobject_page i) has_nx
        ∧ (r.handle_inode_fault v regions i fresh has_nx).2.2 = PageFaultResponse.Continue
        ∧ r.handle_inode_fault v regions i fresh has_nx
            = r.handle_inode_fault v regions i none has_nx)
    ∧ (v.physical_pages.getD (r.translate_to_vmobject_page i) none = none → fresh = none →
        (r.handle_inode_fault v regions i fresh has_nx).1 = v
        ∧ (r.handle_inode_fault v regions i fresh has_nx).2.1 = regions
        ∧ (r.handle_inode_fault v regions i fresh has_nx).2.2 = PageFaultResponse.OutOfMemory)
    ∧ (∀ fr, v.physical_pages.getD (r.translate_to_vmobject_page i) none = none →
        fresh = some fr →
        ∃ page : PhysicalPage,
          (r.handle_inode_fault v regions i fresh has_nx).1.physical_pages
              = v.physical_pages.set (r.translate_to_vmobject_page i) (some page)
          ∧ (r.handle_inode_fault v regions i fresh has_nx).2.2 = PageFaultResponse.Continue
          ∧ page.kind = FrameKind.Normal
          ∧ page.paddr = fr.1
          ∧ page.contents.length = PAGE_SIZE
          ∧ (∀ k, k < PAGE_SIZE →
              page.contents.getD k 0
                = v.inode_data.getD (r.translate_to_vmobject_page i * PAGE_SIZE + k) 0)) := by
  refine ⟨?_, ?_, ?_⟩
  · intro p hp
    have hred : r.handle_inode_fault v regions i fresh has_nx
        = (v, remap_vmobject_page regions v (r.translate_to_vmobject_page i) has_nx,
           PageFaultResponse.Continue) := by
      unfold Region.handle_inode_fault
      simp only [hp]
    have hred2 : r.handle_inode_fault v regions i none has_nx
        = (v, remap_vmobject_page regions v (r.translate_to_vmobject_page i) has_nx,
           PageFaultResponse.Continue) := by
      unfold Region.handle_inode_fault
      simp only [hp]
    exact ⟨by rw [hred], by rw [hred], by rw [hred], by rw [hred, hred2]⟩
  · intro hempty hfr
    have hred : r.handle_inode_fault v regions i fresh has_nx
        = (v, regions, PageFaultResponse.OutOfMemory) := by
      unfold Region.handle_inode_fault
      simp only [hempty, hfr]
    exact ⟨by rw [hred], by rw [hred], by rw [hred]⟩
  · intro fr hempty hfr
    have hred : r.handle_inode_fault v regions i fresh has_nx
        = (inode_publish_state v (r.translate_to_vmobject_page i) fr.1,
           remap_vmobject_page regions
             (inode_publish_state v (r.translate_to_vmobject_page i) fr.1)
             (r.translate_to_vmobject_page i) has_nx,
           PageFaultResponse.Continue) := by
      unfold Region.handle_inode_fault
      simp only [hempty, hfr]
      rfl
    refine ⟨inode_published_page v (r.translate_to_vmobject_page i) fr.1,
      ?_, ?_, ?_, ?_, ?_, ?_⟩
    · rw [hred]
      rfl
    · rw [hred]
    · rfl
    · rfl
    · exact page_buffer_bytes_length v.inode_data (r.translate_to_vmobject_page i * PAGE_SIZE)
    · intro k hk
      exact page_buffer_bytes_getD v.inode_data
        (r.translate_to_vmobject_page i * PAGE_SIZE) k hk

/-- Concrete region over an inode VMO for the C5 witness. -/
def c5_region : Region :=
  { access_r := true, access_w := false, access_x := false, shared := true,
    cacheable := true, offset_in_vmobject := 0, page_count := 1, mapped := true,
    user_allowed := true }

/-- Concrete shared-inode VMO with one empty slot and a two-byte file
for the C5 witness. -/
def c5_vmo : VMObject :=
  { baseAnonVMO with
    kind := VMObjectKind.SharedInode
    physical_pages := [none]
    inode_data := [7, 8] }

/-- C5 witness: the theorem applied at the concrete empty-slot state
with a failed allocation. -/
theorem C5_handle_inode_fault_witness :
    (c5_region.handle_inode_fault c5_vmo [] 0 none false).1 = c5_vmo
    ∧ (c5_region.handle_inode_fault c5_vmo [] 0 none false).2.1 = []
    ∧ (c5_region.handle_inode_fault c5_vmo [] 0 none false).2.2
        = PageFaultResponse.OutOfMemory :=
  (C5_handle_inode_fault c5_region c5_vmo [] 0 none false (by decide) (by decide)).2.1
    (by decide) rfl

/-- Whether a slot holds the lazy-committed sentinel. -/
def slot_is_lazy (s : Option PhysicalPage) : Bool :=
  match s with
  | some p => p.is_lazy_committed_page
  | none => false

/-- The number of lazy-committed slots. -/
def lazyCount (slots : List (Option PhysicalPage)) : Nat :=
  slots.countP slot_is_lazy

/-- The per-slot effect of the copy-constructor loop once it runs to
completion: a lazy-committed slot becomes the shared zero frame,
everything else is untouched. -/
def replaceLazyOne (s : Option PhysicalPage) : Option PhysicalPage :=
  if slot_is_lazy s then some sharedZeroPage else s

/-- The number of slot references a VMO holds to a given frame. -/
def slotRefs (w : VMObject) (f : PhysicalPage) : Nat :=
  w.physical_pages.countP (fun s => decide (s = some f))

lemma map_replaceLazyOne_of_no_lazy :
    ∀ (slots : List (Option PhysicalPage)), lazyCount slots = 0 →
      slots.map replaceLazyOne = slots := by
  intro slots
  induction slots with
  | nil => intro _; rfl
  | cons s rest ih =>
    intro h
    have hs : slot_is_lazy s = false := by
      unfold lazyCount at h
      rw [List.countP_cons] at h
      cases hq : slot_is_lazy s
      · rfl
      · rw [hq] at h
        simp at h
    have hrest : lazyCount rest = 0 := by
      unfold lazyCount at h ⊢
      rw [List.countP_cons, hs] at h
      simpa using h
    simp only [List.map_cons]
    rw [ih hrest]
    unfold replaceLazyOne
    rw [hs]
    simp

lemma replaceLazySlots_run_to_zero :
    ∀ (slots : List (Option PhysicalPage)), lazyCount slots ≠ 0 →
      replaceLazySlots slots (lazyCount slots) = (slots.map replaceLazyOne, 0) := by
  intro slots
  induction slots with
  | nil => intro h; exact absurd rfl h
  | cons s rest ih =>
    intro h
    cases s with
    | none =>
      have hc : lazyCount (none :: rest) = lazyCount rest := by
        unfold lazyCount
        rw [List.countP_cons]
        simp [slot_is_lazy]
      rw [hc] at h ⊢
      simp only [replaceLazySlots]
      rw [ih h]
      simp [replaceLazyOne, slot_is_lazy]
    | some p =>
      cases hl : p.is_lazy_committed_page with
      | false =>
        have hc : lazyCount (some p :: rest) = lazyCount rest := by
          unfold lazyCount
          rw [List.countP_cons]
          simp [slot_is_lazy, hl]
        rw [hc] at h ⊢
        simp only [replaceLazySlots, hl]
        rw [ih h]
        simp [replaceLazyOne, slot_is_lazy, hl]
      | true =>
        have hc : lazyCount (some p :: rest) = lazyCount rest + 1 := by
          unfold lazyCount
          rw [List.countP_cons]
          simp [slot_is_lazy, hl]
        rw [hc]
        simp only [replaceLazySlots, hl, Nat.add_sub_cancel, reduceIte]
        by_cases hz : lazyCount rest = 0
        · rw [hz]
          simp only [reduceIte]
          rw [show (some p :: rest).map replaceLazyOne
              = some sharedZeroPage :: rest.map replaceLazyOne by
            simp [replaceLazyOne, slot_is_lazy, hl]]
          rw [map_replaceLazyOne_of_no_lazy rest hz]
        · rw [if_neg hz]
          rw [ih hz]
          simp [replaceLazyOne, slot_is_lazy, hl]

lemma ensure_or_reset_preserves (v : VMObject) :
    (v.ensure_or_reset_cow_map).physical_pages = v.physical_pages
    ∧ (v.ensure_or_reset_cow_map).unused_committed_pages = v.unused_committed_pages
    ∧ (v.ensure_or_reset_cow_map).shared_committed_cow_pages = v.shared_committed_cow_pages
    ∧ (v.ensure_or_reset_cow_map).kind = v.kind := by
  unfold VMObject.ensure_or_reset_cow_map
  cases v.cow_map <;> exact ⟨rfl, rfl, rfl, rfl⟩

lemma ensure_or_reset_cow_map_eq (v : VMObject)
    (hcm : ∀ m, v.cow_map = some m → m.length = v.page_count) :
    (v.ensure_or_reset_cow_map).cow_map = some (List.replicate v.page_count true) := by
  unfold VMObject.ensure_or_reset_cow_map
  cases hc : v.cow_map with
  | none => rfl
  | some m => simp [hcm m hc]

lemma clone_child_spec (v : VMObject)
    (h : v.unused_committed_pages = lazyCount v.physical_pages) :
    (v.clone_child).physical_pages = v.physical_pages.map replaceLazyOne
    ∧ (v.clone_child).unused_committed_pages = 0
    ∧ (v.clone_child).cow_map = some (List.replicate v.page_count true)
    ∧ (v.clone_child).shared_committed_cow_pages = v.shared_committed_cow_pages := by
  unfold VMObject.clone_child VMObject.ensure_or_reset_cow_map
  simp only
  by_cases hz : v.unused_committed_pages = 0
  · have hlz : lazyCount v.physical_pages = 0 := by omega
    rw [map_replaceLazyOne_of_no_lazy v.physical_pages hlz]
    simp [hz, VMObject.page_count]
  · have hgt : v.unused_committed_pages > 0 := Nat.pos_of_ne_zero hz
    have hne : lazyCount v.physical_pages ≠ 0 := by omega
    rw [h]
    simp only [VMObject.page_count]
    rw [replaceLazySlots_run_to_zero v.physical_pages hne]
    simp [Nat.pos_of_ne_zero hne, VMObject.page_count]

/-- C9: under the commit invariant (the unused-committed counter equals
the number of lazy-committed slots, which the VERIFY at the end of the
copy constructor enforces), the child of a successful try_clone has no
lazy-committed slot and an unused-committed counter of exactly zero. -/
theorem C9_clone_child_lazy_free (v : VMObject) (mm : MMState) (child : VMObject)
    (h : v.unused_committed_pages = lazyCount v.physical_pages)
    (hch : (v.try_clone mm true true).1 = some child) :
    lazyCount child.physical_pages = 0 ∧ child.unused_committed_pages = 0 := by
  unfold VMObject.try_clone at hch
  cases hcc : mm.can_commit v.need_cow_pages with
  | false =>
    simp [hcc] at hch
  | true =>
    simp only [hcc, Bool.not_true, Bool.false_eq_true, if_false, Bool.not_false,
      reduceIte, Option.some.injEq] at hch
    subst hch
    have hpres := ensure_or_reset_preserves
      { v with shared_committed_cow_pages := some v.need_cow_pages }
    have hinv : (VMObject.ensure_or_reset_cow_map
          { v with shared_committed_cow_pages := some v.need_cow_pages }).unused_committed_pages
        = lazyCount (VMObject.ensure_or_reset_cow_map
          { v with shared_committed_cow_pages := some v.need_cow_pages }).physical_pages := by
      rw [hpres.2.1, hpres.1]
      exact h
    have hspec := clone_child_spec _ hinv
    constructor
    · rw [hspec.1]
      unfold lazyCount
      rw [List.countP_map]
      apply List.countP_eq_zero.mpr
      intro s _
      simp only [Function.comp]
      unfold replaceLazyOne
      cases hs : slot_is_lazy s
      · simp [hs]
      · simp [slot_is_lazy, sharedZeroPage, PhysicalPage.is_lazy_committed_page]
    · exact hspec.2.1

/-- Concrete one-lazy-page parent for the C9 witness. -/
def c9_parent : VMObject :=
  { baseAnonVMO with
    physical_pages := [some lazyCommittedPage]
    unused_committed_pages := 1 }

/-- C9 witness: the theorem applied to the concrete clone of the
one-lazy-page parent. -/
theorem C9_clone_child_lazy_free_witness :
    lazyCount ((c9_parent.try_clone { free_pool := 4 } true true).1.getD
        baseAnonVMO).physical_pages = 0
    ∧ ((c9_parent.try_clone { free_pool := 4 } true true).1.getD
        baseAnonVMO).unused_committed_pages = 0 :=
  C9_clone_child_lazy_free c9_parent { free_pool := 4 }
    ((c9_parent.try_clone { free_pool := 4 } true true).1.getD baseAnonVMO)
    (by decide) rfl

lemma slotRefs_pos_of_getD (w : VMObject) (i : Nat) (f : PhysicalPage)
    (h : w.physical_pages.getD i none = some f) : 1 ≤ slotRefs w f := by
  unfold slotRefs
  rw [List.getD_eq_getElem?_getD] at h
  cases hq : w.physical_pages[i]? with
  | none =>
    rw [hq] at h
    simp at h
  | some s =>
    rw [hq] at h
    simp only [Option.getD_some] at h
    subst h
    have hmem : some f ∈ w.physical_pages := List.getElem?_mem hq
    have hpos : 0 < w.physical_pages.countP (fun s => decide (s = some f)) :=
      List.countP_pos.mpr ⟨some f, hmem, by simp⟩
    omega

/-- Concrete reserve-strategy parent (one lazy-committed slot) for the C3
counterexample. -/
def c3_parent : VMObject :=
  { baseAnonVMO with
    physical_pages := [some lazyCommittedPage]
    unused_committed_pages := 1 }

/-- C3 counterexample: a successful try_clone of a parent holding a
lazy-committed slot yields a child whose slot 0 holds the shared zero
frame while the parent keeps the lazy-committed sentinel, so parent and
child do not share the frame of every page: the claim as stated is false
at this state. -/
theorem C3_counterexample :
    ((c3_parent.try_clone { free_pool := 4 } true true).1).isSome = true
    ∧ ((c3_parent.try_clone { free_pool := 4 } true
          true).1.getD baseAnonVMO).physical_pages.getD 0 none
        ≠ ((c3_parent.try_clone { free_pool := 4 } true
          true).2.1).physical_pages.getD 0 none := by
  constructor
  · decide
  · decide

/-- C3 amended: after a successful try_clone, the cow bitmap of both the
parent and the child is all-ones over the entire page range, and every
page whose parent slot is not the lazy-committed sentinel is shared by
parent and child (same frame in both slots, hence at least two slot
references); a lazy-committed parent slot is instead replaced by the
shared zero frame in the child.  The hypotheses are the commit invariant
(counter equals number of lazy slots) and the bitmap-size invariant. -/
theorem C3_try_clone_amended (v : VMObject) (mm : MMState) (child : VMObject)
    (h : v.unused_committed_pages = lazyCount v.physical_pages)
    (hcm : ∀ m, v.cow_map = some m → m.length = v.page_count)
    (hch : (v.try_clone mm true true).1 = some child) :
    ((v.try_clone mm true true).2.1).cow_map = some (List.replicate v.page_count true)
    ∧ child.cow_map = some (List.replicate v.page_count true)
    ∧ ((v.try_clone mm true true).2.1).physical_pages = v.physical_pages
    ∧ (∀ i, i < v.page_count →
        (slot_is_lazy (v.physical_pages.getD i none) = false
          ∧ child.physical_pages.getD i none = v.physical_pages.getD i none)
        ∨ (slot_is_lazy (v.physical_pages.getD i none) = true
          ∧ child.physical_pages.getD i none = some sharedZeroPage))
    ∧ (∀ i f, i < v.page_count →
        v.physical_pages.getD i none = some f →
        child.physical_pages.getD i none = some f →
        2 ≤ slotRefs ((v.try_clone mm true true).2.1) f + slotRefs child f) := by
  have hcc : mm.can_commit v.need_cow_pages = true := by
    cases hq : mm.can_commit v.need_cow_pages
    · exfalso
      unfold VMObject.try_clone at hch
      simp [hq] at hch
    · rfl
  have hred : v.try_clone mm true true
      = (some (VMObject.clone_child (VMObject.ensure_or_reset_cow_map
            { v with shared_committed_cow_pages := some v.need_cow_pages })),
         VMObject.ensure_or_reset_cow_map
            { v with shared_committed_cow_pages := some v.need_cow_pages },
         mm.commit v.need_cow_pages) := by
    unfold VMObject.try_clone
    simp [hcc]
  rw [hred] at hch
  simp only [Option.some.injEq] at hch
  subst hch
  have hpres := ensure_or_reset_preserves
    { v with shared_committed_cow_pages := some v.need_cow_pages }
  have hinv : (VMObject.ensure_or_reset_cow_map
        { v with shared_committed_cow_pages := some v.need_cow_pages }).unused_committed_pages
      = lazyCount (VMObject.ensure_or_reset_cow_map
        { v with shared_committed_cow_pages := some v.need_cow_pages }).physical_pages := by
    rw [hpres.2.1, hpres.1]
    exact h
  have hspec := clone_child_spec _ hinv
  have hcp : (VMObject.clone_child (VMObject.ensure_or_reset_cow_map
        { v with shared_committed_cow_pages := some v.need_cow_pages })).physical_pages
      = v.physical_pages.map replaceLazyOne := by
    rw [hspec.1, hpres.1]
  have hpc : (VMObject.ensure_or_reset_cow_map
      { v with shared_committed_cow_pages := some v.need_cow_pages }).page_count
      = v.page_count := by
    unfold VMObject.page_count
    rw [hpres.1]
  refine ⟨?_, ?_, ?_, ?_, ?_⟩
  · rw [hred]
    exact ensure_or_reset_cow_map_eq _ hcm
  · rw [← hpc]
    exact hspec.2.2.1
  · rw [hred]
    exact hpres.1
  · intro i hi
    have hlen : i < v.physical_pages.length := hi
    have hgi : v.physical_pages[i]? = some v.physical_pages[i] :=
      List.getElem?_eq_getElem hlen
    have hmapD : (v.physical_pages.map replaceLazyOne).getD i none
        = replaceLazyOne (v.physical_pages.getD i none) := by
      rw [List.getD_eq_getElem?_getD, List.getD_eq_getElem?_getD, List.getElem?_map, hgi]
      rfl
    cases hs : slot_is_lazy (v.physical_pages.getD i none) with
    | false =>
      left
      refine ⟨rfl, ?_⟩
      rw [hcp, hmapD]
      unfold replaceLazyOne
      rw [hs]
      simp
    | true =>
      right
      refine ⟨rfl, ?_⟩
      rw [hcp, hmapD]
      unfold replaceLazyOne
      rw [hs]
      simp
  · intro i f hi hpf hcf
    have h1 : 1 ≤ slotRefs (VMObject.ensure_or_reset_cow_map
        { v with shared_committed_cow_pages := some v.need_cow_pages }) f := by
      apply slotRefs_pos_of_getD _ i
      rw [hpres.1]
      exact hpf
    have h2 : 1 ≤ slotRefs (VMObject.clone_child (VMObject.ensure_or_reset_cow_map
        { v with shared_committed_cow_pages := some v.need_cow_pages })) f :=
      slotRefs_pos_of_getD _ i f hcf
    rw [hred]
    have hsum : 2 ≤ slotRefs (VMObject.ensure_or_reset_cow_map
          { v with shared_committed_cow_pages := some v.need_cow_pages }) f
        + slotRefs (VMObject.clone_child (VMObject.ensure_or_reset_cow_map
          { v with shared_committed_cow_pages := some v.need_cow_pages })) f := by
      omega
    exact hsum

/-- Concrete parent with a normal shared frame and a lazy slot for the C3
amended witness. -/
def c3_frame : PhysicalPage :=
  { kind := FrameKind.Normal, paddr := 0xB000, ref_count := 2, contents := [] }

/-- Concrete two-page parent for the C3 amended witness. -/
def c3_parent2 : VMObject :=
  { baseAnonVMO with
    physical_pages := [some c3_frame, some lazyCommittedPage]
    unused_committed_pages := 1 }

/-- C3 amended witness: the theorem applied to the concrete two-page
parent. -/
theorem C3_try_clone_amended_witness :
    ((c3_parent2.try_clone { free_pool := 4 } true true).2.1).cow_map
      = some (List.replicate c3_parent2.page_count true) :=
  (C3_try_clone_amended c3_parent2 { free_pool := 4 }
    ((c3_parent2.try_clone { free_pool := 4 } true true).1.getD baseAnonVMO)
    (by decide)
    (fun m hm => by
      have hb : c3_parent2.cow_map = (none : Option (List Bool)) := rfl
      rw [hb] at hm
      exact Option.noConfusion hm)
    rfl).1

/-- The VMO state after a lazy-commit fault materialised a committed
frame into the slot. -/
def lazy_fault_state (v : VMObject) (idx : Nat) (fcp : Nat) : VMObject :=
  { v with
    physical_pages := v.physical_pages.set idx (some (committed_zero_frame fcp))
    unused_committed_pages := v.unused_committed_pages - 1 }

/-- C6: a not-present fault that is a read on a non-readable region or a
write on a non-writable region crashes the faulter with every state left
untouched, whatever the slot holds; and a permitted not-present fault on
a non-inode VMO whose slot holds the lazy-committed sentinel (under the
VERIFY conditions: positive unused-committed counter, non-volatile page)
installs a zero-filled committed frame in the slot, decrements the
counter, remaps the page across every region of the VMO, and returns
Continue; every mapped region whose window covers the page gets its PTE
recomputed against the new VMO state. -/
theorem C6_handle_fault_not_present (r : Region) (v : VMObject)
    (regions : List MappedRegion) (mm : MMState) (fault : PageFault) (i : Nat)
    (fresh : Option (Nat × List Nat)) (fcp : Nat) (has_nx : Bool)
    (hnp : fault.fault_type = FaultType.PageNotPresent) :
    (fault.is_read = true → r.is_readable = false →
        r.handle_fault v regions mm fault i fresh fcp has_nx
          = (v, regions, mm, PageFaultResponse.ShouldCrash))
    ∧ (fault.is_write = true → r.is_writable = false →
        r.handle_fault v regions mm fault i fresh fcp has_nx
          = (v, regions, mm, PageFaultResponse.ShouldCrash))
    ∧ (∀ p, (fault.is_read = true → r.is_readable = true) →
        (fault.is_write = true → r.is_writable = true) →
        v.is_inode = false →
        v.physical_pages.getD (r.translate_to_vmobject_page i) none = some p →
        p.is_lazy_committed_page = true →
        0 < v.unused_committed_pages →
        v.is_nonvolatile (r.translate_to_vmobject_page i) = true →
        r.handle_fault v regions mm fault i fresh fcp has_nx
            = (lazy_fault_state v (r.translate_to_vmobject_page i) fcp,
               remap_vmobject_page regions
                 (lazy_fault_state v (r.translate_to_vmobject_page i) fcp)
                 (r.translate_to_vmobject_page i) has_nx,
               mm, PageFaultResponse.Continue)
        ∧ (lazy_fault_state v (r.translate_to_vmobject_page i) fcp).physical_pages
            = v.physical_pages.set (r.translate_to_vmobject_page i)
                (some (committed_zero_frame fcp))
        ∧ (lazy_fault_state v (r.translate_to_vmobject_page i) fcp).unused_committed_pages
            = v.unused_committed_pages - 1
        ∧ (∀ mr, mr ∈ regions → mr.region.mapped = true →
            mr.region.first_page_index ≤ r.translate_to_vmobject_page i →
            r.translate_to_vmobject_page i
                < mr.region.first_page_index + mr.region.page_count →
            (do_remap_vmobject_page mr
                (lazy_fault_state v (r.translate_to_vmobject_page i) fcp)
                (r.translate_to_vmobject_page i) has_nx).ptes
              = mr.ptes.set (r.translate_to_vmobject_page i - mr.region.first_page_index)
                  (mr.region.map_individual_page_impl
                    (lazy_fault_state v (r.translate_to_vmobject_page i) fcp)
                    (r.translate_to_vmobject_page i - mr.region.first_page_index)
                    (mr.ptes.getD
                      (r.translate_to_vmobject_page i - mr.region.first_page_index)
                      PTE.cleared)
                    has_nx))) := by
  obtain ⟨ft, ac⟩ := fault
  simp only at hnp
  subst hnp
  refine ⟨?_, ?_, ?_⟩
  · intro hr hnr
    cases ac with
    | Read =>
      unfold Region.handle_fault
      simp [PageFault.is_read, PageFault.is_write, hnr]
    | Write =>
      simp [PageFault.is_read] at hr
  · intro hw hnw
    cases ac with
    | Read =>
      simp [PageFault.is_write] at hw
    | Write =>
      unfold Region.handle_fault
      simp [PageFault.is_read, PageFault.is_write, hnw]
  · intro p hr hw hni hslot hlazy hu hnv
    have hmain : r.handle_fault v regions mm
        { fault_type := FaultType.PageNotPresent, access := ac } i fresh fcp has_nx
        = (lazy_fault_state v (r.translate_to_vmobject_page i) fcp,
           remap_vmobject_page regions
             (lazy_fault_state v (r.translate_to_vmobject_page i) fcp)
             (r.translate_to_vmobject_page i) has_nx,
           mm, PageFaultResponse.Continue) := by
      cases ac with
      | Read =>
        have hra : r.is_readable = true := hr rfl
        unfold Region.handle_fault
        simp only [PageFault.is_read, PageFault.is_write, hra, hni, hslot, hlazy,
          Bool.not_true, Bool.and_false, Bool.false_and, Bool.and_true,
          Bool.false_eq_true, if_false, reduceIte]
        rfl
      | Write =>
        have hwa : r.is_writable = true := hw rfl
        unfold Region.handle_fault
        simp only [PageFault.is_read, PageFault.is_write, hwa, hni, hslot, hlazy,
          Bool.not_true, Bool.and_false, Bool.false_and, Bool.and_true,
          Bool.false_eq_true, if_false, reduceIte]
        rfl
    refine ⟨hmain, rfl, rfl, ?_⟩
    intro mr hmr hmapped h1 h2
    unfold do_remap_vmobject_page
    rw [hmapped]
    simp only [Bool.not_true, Bool.false_eq_true, if_false]
    rw [if_neg (by omega), if_neg (by omega)]

/-- Concrete non-readable region for the C6 witness. -/
def c6_region : Region :=
  { access_r := false, access_w := false, access_x := false, shared := false,
    cacheable := true, offset_in_vmobject := 0, page_count := 1, mapped := true,
    user_allowed := true }

/-- Concrete anonymous VMO with a lazy slot for the C6 witness. -/
def c6_vmo : VMObject :=
  { baseAnonVMO with
    physical_pages := [some lazyCommittedPage]
    unused_committed_pages := 1 }

/-- C6 witness: a read fault on the non-readable region crashes without
touching any state. -/
theorem C6_handle_fault_not_present_witness :
    c6_region.handle_fault c6_vmo [] { free_pool := 0 }
        { fault_type := FaultType.PageNotPresent, access := FaultAccess.Read } 0
        none 0 false
      = (c6_vmo, [], { free_pool := 0 }, PageFaultResponse.ShouldCrash) :=
  (C6_handle_fault_not_present c6_region c6_vmo [] { free_pool := 0 }
    { fault_type := FaultType.PageNotPresent, access := FaultAccess.Read } 0
    none 0 false rfl).1 rfl rfl

/-- Whether a slot would be counted by purge: it holds a frame other than
the shared zero frame. -/
def purgeable_slot (s : Option PhysicalPage) : Bool :=
  match s with
  | some p => !p.is_shared_zero_page
  | none => false

/-- Two page ranges occupy disjoint windows. -/
def rangesDisjoint (r1 r2 : VolatilePageRange) : Prop :=
  r1.base + r1.count ≤ r2.base ∨ r2.base + r2.count ≤ r1.base

lemma containsPage_false (rng : VolatilePageRange) (j : Nat)
    (h : rng.containsPage j = false) : j < rng.base ∨ rng.base + rng.count ≤ j := by
  simp [VolatilePageRange.containsPage] at h
  omega

lemma containsPage_true (rng : VolatilePageRange) (j : Nat)
    (h : rng.containsPage j = true) : rng.base ≤ j ∧ j < rng.base + rng.count := by
  simp [VolatilePageRange.containsPage] at h
  omega

lemma containsPage_of_outside (rng : VolatilePageRange) (j : Nat)
    (h : j < rng.base ∨ rng.base + rng.count ≤ j) : rng.containsPage j = false := by
  simp [VolatilePageRange.containsPage]
  omega

lemma purge_slots_from_length (k : Nat) :
    ∀ (slots : List (Option PhysicalPage)) (i : Nat),
      (purge_slots_from slots i k).1.length = slots.length := by
  induction k with
  | zero => intro slots i; rfl
  | succ k ih =>
    intro slots i
    show (purge_slots_from (slots.set i (some sharedZeroPage)) (i + 1) k).1.length
        = slots.length
    rw [ih, List.length_set]

lemma purge_slots_from_untouched (k : Nat) :
    ∀ (slots : List (Option PhysicalPage)) (i j : Nat), j < i ∨ i + k ≤ j →
      (purge_slots_from slots i k).1.getD j none = slots.getD j none := by
  induction k with
  | zero => intro slots i j _; rfl
  | succ k ih =>
    intro slots i j hj
    show (purge_slots_from (slots.set i (some sharedZeroPage)) (i + 1) k).1.getD j none
        = slots.getD j none
    rw [ih _ (i + 1) j (by omega)]
    rw [List.getD_eq_getElem?_getD, List.getD_eq_getElem?_getD,
      List.getElem?_set_ne (by omega : i ≠ j)]

lemma purge_slots_from_covered (k : Nat) :
    ∀ (slots : List (Option PhysicalPage)) (i j : Nat),
      i ≤ j → j < i + k → j < slots.length →
      (purge_slots_from slots i k).1.getD j none = some sharedZeroPage := by
  induction k with
  | zero =>
    intro slots i j h1 h2 _
    exact absurd h2 (by omega)
  | succ k ih =>
    intro slots i j h1 h2 hlen
    show (purge_slots_from (slots.set i (some sharedZeroPage)) (i + 1) k).1.getD j none
        = some sharedZeroPage
    by_cases hji : j = i
    · subst hji
      rw [purge_slots_from_untouched k _ (j + 1) j (Or.inl (by omega))]
      exact getD_set_self slots j (some sharedZeroPage) none hlen
    · exact ih (slots.set i (some sharedZeroPage)) (i + 1) j (by omega) (by omega)
        (by rw [List.length_set]; exact hlen)

lemma purge_slots_from_count (k : Nat) :
    ∀ (slots : List (Option PhysicalPage)) (i : Nat),
      (purge_slots_from slots i k).2
        = (List.range' i k).countP (fun j => purgeable_slot (slots.getD j none)) := by
  induction k with
  | zero => intro slots i; rfl
  | succ k ih =>
    intro slots i
    show (match slots.getD i none with
          | some p => if p.is_shared_zero_page then 0 else 1
          | none => 0)
        + (purge_slots_from (slots.set i (some sharedZeroPage)) (i + 1) k).2
        = (List.range' i (k + 1)).countP (fun j => purgeable_slot (slots.getD j none))
    rw [List.range'_succ, List.countP_cons, ih]
    have hcongr : (List.range' (i + 1) k).countP
          (fun j => purgeable_slot ((slots.set i (some sharedZeroPage)).getD j none))
        = (List.range' (i + 1) k).countP (fun j => purgeable_slot (slots.getD j none)) := by
      apply List.countP_congr
      intro j hj
      have hji : i ≠ j := by
        rw [List.mem_range'_1] at hj
        omega
      rw [List.getD_eq_getElem?_getD, List.getD_eq_getElem?_getD,
        List.getElem?_set_ne hji]
    rw [hcongr]
    cases hs : slots.getD i none with
    | none => simp [purgeable_slot]
    | some p =>
      cases hz : p.is_shared_zero_page <;> simp [purgeable_slot, hz] <;> omega

lemma purge_ranges_spec :
    ∀ (ranges : List VolatilePageRange) (slots : List (Option PhysicalPage))
      (regs : List Bool),
      (∀ rng ∈ ranges, rng.base + rng.count ≤ slots.length) →
      List.Pairwise rangesDisjoint ranges →
      (purge_ranges slots regs ranges).1.length = slots.length
      ∧ (∀ j, (∀ rng ∈ ranges, rng.containsPage j = false) →
          (purge_ranges slots regs ranges).1.getD j none = slots.getD j none)
      ∧ (∀ j, j < slots.length → (∃ rng, rng ∈ ranges ∧ rng.containsPage j = true) →
          (purge_ranges slots regs ranges).1.getD j none = some sharedZeroPage)
      ∧ (purge_ranges slots regs ranges).2.2
          = (ranges.map (fun rng => (List.range' rng.base rng.count).countP
              (fun j => purgeable_slot (slots.getD j none)))).sum
      ∧ (purge_ranges slots regs ranges).2.1
          = (if 0 < (purge_ranges slots regs ranges).2.2
              then regs.map (fun _ => true) else regs) := by
  intro ranges
  induction ranges with
  | nil =>
    intro slots regs _ _
    refine ⟨rfl, fun j _ => rfl, ?_, rfl, by simp [purge_ranges]⟩
    intro j _ hex
    obtain ⟨rng, hmem, _⟩ := hex
    exact absurd hmem (List.not_mem_nil rng)
  | cons rng rest ih =>
    intro slots regs hb hdisj
    obtain ⟨hd, hrest⟩ := List.pairwise_cons.mp hdisj
    have hbr : rng.base + rng.count ≤ slots.length := hb rng (List.mem_cons_self rng rest)
    have hlen1 : (purge_slots_from slots rng.base rng.count).1.length = slots.length :=
      purge_slots_from_length rng.count slots rng.base
    have hbrest : ∀ r2 ∈ rest, r2.base + r2.count
        ≤ (purge_slots_from slots rng.base rng.count).1.length := by
      intro r2 h2
      rw [hlen1]
      exact hb r2 (List.mem_cons_of_mem rng h2)
    have hih := ih (purge_slots_from slots rng.base rng.count).1
      (if (purge_slots_from slots rng.base rng.count).2 > 0
        then regs.map (fun _ => true) else regs) hbrest hrest
    have hstep : purge_ranges slots regs (rng :: rest)
        = ((purge_ranges (purge_slots_from slots rng.base rng.count).1
              (if (purge_slots_from slots rng.base rng.count).2 > 0
                then regs.map (fun _ => true) else regs) rest).1,
           (purge_ranges (purge_slots_from slots rng.base rng.count).1
              (if (purge_slots_from slots rng.base rng.count).2 > 0
                then regs.map (fun _ => true) else regs) rest).2.1,
           (purge_slots_from slots rng.base rng.count).2
            + (purge_ranges (purge_slots_from slots rng.base rng.count).1
                (if (purge_slots_from slots rng.base rng.count).2 > 0
                  then regs.map (fun _ => true) else regs) rest).2.2) := rfl
    rw [hstep]
    refine ⟨?_, ?_, ?_, ?_, ?_⟩
    · rw [hih.1, hlen1]
    · intro j hnone
      rw [hih.2.1 j (fun r2 h2 => hnone r2 (List.mem_cons_of_mem rng h2))]
      exact purge_slots_from_untouched rng.count slots rng.base j
        (containsPage_false rng j (hnone rng (List.mem_cons_self rng rest)))
    · intro j hj hex
      obtain ⟨rng2, hmem, hcont⟩ := hex
      rcases List.mem_cons.mp hmem with heq | hmem2
      · subst heq
        have hio := containsPage_true rng2 j hcont
        have hnotrest : ∀ r2 ∈ rest, r2.containsPage j = false := by
          intro r2 h2
          apply containsPage_of_outside
          rcases hd r2 h2 with hlt | hlt
          · left
            omega
          · right
            omega
        rw [hih.2.1 j hnotrest]
        exact purge_slots_from_covered rng2.count slots rng2.base j hio.1 hio.2 hj
      · exact hih.2.2.1 j (by rw [hlen1]; exact hj) ⟨rng2, hmem2, hcont⟩
    · rw [List.map_cons, List.sum_cons, hih.2.2.2.1,
        purge_slots_from_count rng.count slots rng.base]
      have hcongr : rest.map (fun rng2 => (List.range' rng2.base rng2.count).countP
            (fun j => purgeable_slot
              ((purge_slots_from slots rng.base rng.count).1.getD j none)))
          = rest.map (fun rng2 => (List.range' rng2.base rng2.count).countP
            (fun j => purgeable_slot (slots.getD j none))) := by
        apply List.map_congr_left
        intro rng2 h2
        apply List.countP_congr
        intro j hj
        rw [List.mem_range'_1] at hj
        have huntouched : (purge_slots_from slots rng.base rng.count).1.getD j none
            = slots.getD j none := by
          apply purge_slots_from_untouched
          rcases hd rng2 h2 with hlt | hlt
          · right
            exact Nat.le_trans hlt (by omega)
          · left
            omega
        rw [huntouched]
      rw [hcongr]
    · by_cases h0 : (purge_slots_from slots rng.base rng.count).2 > 0
      · rw [if_pos h0] at hih ⊢
        rw [hih.2.2.2.2]
        have hmm : (regs.map (fun _ => true)).map (fun _ => true)
            = regs.map (fun _ => true) := by simp
        rw [hmm, ite_self, if_pos (show 0 < (purge_slots_from slots rng.base rng.count).2
          + (purge_ranges (purge_slots_from slots rng.base rng.count).1
              (regs.map (fun _ => true)) rest).2.2 by omega)]
      · rw [if_neg h0] at hih ⊢
        rw [hih.2.2.2.2]
        have hz : (purge_slots_from slots rng.base rng.count).2 = 0 := by omega
        rw [hz, Nat.zero_add]

/-- C8: purge leaves every slot inside every volatile range holding the
shared zero sentinel and every slot outside them untouched, returns the
total count of replaced pages (slots that held a frame other than the
shared zero frame), and sets the was-purged flag of every registration
exactly when at least one page was replaced.  Hypotheses: every volatile
range lies within the page range, the volatile ranges are pairwise
disjoint, and (mirroring the VERIFY in the loop) no slot of a volatile
range holds the lazy-committed sentinel. -/
theorem C8_purge (v : VMObject)
    (hb : ∀ rng ∈ v.volatile_ranges, rng.base + rng.count ≤ v.page_count)
    (hdisj : List.Pairwise rangesDisjoint v.volatile_ranges)
    (hnl : ∀ j, j < v.page_count → v.is_volatile_page j = true →
      slot_is_lazy (v.physical_pages.getD j none) = false) :
    (∀ j, j < v.page_count → v.is_volatile_page j = true →
        (v.purge).1.physical_pages.getD j none = some sharedZeroPage)
    ∧ (∀ j, v.is_volatile_page j = false →
        (v.purge).1.physical_pages.getD j none = v.physical_pages.getD j none)
    ∧ (v.purge).2 = (v.volatile_ranges.map (fun rng =>
        (List.range' rng.base rng.count).countP
          (fun j => purgeable_slot (v.physical_pages.getD j none)))).sum
    ∧ (v.purge).1.registrations
        = (if 0 < (v.purge).2 then v.registrations.map (fun _ => true)
            else v.registrations) := by
  have hspec := purge_ranges_spec v.volatile_ranges v.physical_pages v.registrations hb hdisj
  refine ⟨?_, ?_, hspec.2.2.2.1, hspec.2.2.2.2⟩
  · intro j hj hvol
    simp only [VMObject.is_volatile_page, List.any_eq_true] at hvol
    exact hspec.2.2.1 j hj hvol
  · intro j hvol
    simp only [VMObject.is_volatile_page, List.any_eq_false] at hvol
    refine hspec.2.1 j (fun rng hr => ?_)
    cases hq : rng.containsPage j
    · rfl
    · exact absurd hq (hvol rng hr)

/-- Concrete purgeable VMO for the C8 witness: three pages, the first two
volatile (one normal and one already shared-zero), one registration. -/
def c8_vmo : VMObject :=
  { baseAnonVMO with
    physical_pages := [some { kind := FrameKind.Normal, paddr := 0xC000,
                              ref_count := 1, contents := [] },
                       some sharedZeroPage,
                       some { kind := FrameKind.Normal, paddr := 0xD000,
                              ref_count := 1, contents := [] }]
    volatile_ranges := [{ base := 0, count := 2 }]
    registrations := [false] }

/-- C8 witness: the theorem applied at the concrete purgeable state. -/
theorem C8_purge_witness :
    (c8_vmo.purge).2 = (c8_vmo.volatile_ranges.map (fun rng =>
        (List.range' rng.base rng.count).countP
          (fun j => purgeable_slot (c8_vmo.physical_pages.getD j none)))).sum :=
  (C8_purge c8_vmo (by decide)
    (List.Pairwise.cons (fun b hb => absurd hb (List.not_mem_nil b)) List.Pairwise.nil)
    (by decide)).2.2.1

end PranaOS
